import Mathlib

/-!
# Issuing CA of the identity service (pkg/tls/ca.go, controller/cmd/identity/main.go)

A shallow embedding of the certificate-issuance core:

* `Validity.Window`: the validity window calculator;
* `createTemplate` / `CA.createTemplate`: the template builder and the serial counter;
* `NewCA`, `CreateRootCA`, `CA.GenerateCA`, `CA.SignEndEntityCrt`: the issuing CA;
* `identityValidity`: the `Validity` that `main` builds from the configuration.

Conventions of the embedding.

* `uint64` is `Nat` with an explicit `% 2 ^ 64` at every increment, `int64` is `Int`
  with an explicit two's-complement wrap (`wrapInt64`).
* `time.Time` is a count of nanoseconds of Unix time. `Time.Add` works on the `int64`
  count of seconds since year 1 and the nanoseconds within the second, and saturates
  when the second count overflows (`timeAdd`); the results about the window are
  stated for times whose second count is in range (`Representable`). `time.Now()`
  is an explicit argument `now`.
* Mutation of the receiver `*CA` is explicit state passing: every method returns the
  CA state after the call next to its result.
* The standard library and the parts of the package that live in other files
  (`x509.CreateCertificate`, `x509.ParseCertificate`, `ecdsa.GenerateKey`,
  `Cred.SignCrt`, `ptypes.Duration`) are arguments of the functions that call them.
* Pointer fields are modelled by their pointees.
-/

namespace Tls

/-! ## Machine integers, durations and times -/

/-- Two's-complement reduction of an integer to the `int64` range. -/
def wrapInt64 (x : Int) : Int := (x + 2 ^ 63) % 2 ^ 64 - 2 ^ 63

/-- The Go conversion `int64(n)` of a `uint64` value `n`. -/
def int64OfUint64 (n : Nat) : Int := wrapInt64 (n : Int)

/-- The Go type `time.Duration`: an `int64` count of nanoseconds. -/
abbrev Duration := Int

/-- The Go type `time.Time`, as nanoseconds of Unix time. -/
abbrev Time := Int

/-- The constant `unixToInternal` of package `time`: the seconds from January 1 of
year 1 to January 1 of 1970. -/
def unixToInternal : Int := 62135596800

/-- The second count of the time `t` (nanoseconds of Unix time), taken from year 1,
fits the `int64` field in which `time.Time` keeps it. -/
def Representable (t : Int) : Prop :=
  -2 ^ 63 ≤ t / 1000000000 + unixToInternal ∧ t / 1000000000 + unixToInternal < 2 ^ 63

instance (t : Int) : Decidable (Representable t) := inferInstanceAs (Decidable (_ ∧ _))

/-- The constant `time.Minute`. -/
def Minute : Duration := 60000000000

/-- The constant `time.Hour`. -/
def Hour : Duration := 3600000000000

/-- The method `Time.Add` with its helper `addSec`, on a time `t` and a duration `d`
in nanoseconds. The duration is split by the
truncating division of Go into seconds and nanoseconds, the nanoseconds are brought
back into one second with a carry, and the seconds are added to the second count of
the time; when that sum leaves the `int64` range the count is set to the largest
value in the direction of the addition. (Releases of Go without the saturation wrap
instead; both agree whenever the sum is in range.) -/
def timeAdd (t d : Int) : Int :=
  let sec := t / 1000000000 + unixToInternal
  let nsec := t % 1000000000
  let dsec := Int.tdiv d 1000000000
  let nsec := nsec + Int.tmod d 1000000000
  let dsec := if nsec ≥ 1000000000 then dsec + 1 else if nsec < 0 then dsec - 1 else dsec
  let nsec :=
    if nsec ≥ 1000000000 then nsec - 1000000000 else if nsec < 0 then nsec + 1000000000 else nsec
  let sum := sec + dsec
  let sec :=
    if -2 ^ 63 ≤ sum ∧ sum < 2 ^ 63 then sum else if dsec > 0 then 2 ^ 63 - 1 else -(2 ^ 63 - 1)
  (sec - unixToInternal) * 1000000000 + nsec

/-- Unary minus on `time.Duration` (an `int64` negation, which wraps at the minimum). -/
def durationNeg (d : Duration) : Duration := wrapInt64 (-d)

/-- The value is representable as an `int64`. -/
def IsInt64 (d : Int) : Prop := -2 ^ 63 ≤ d ∧ d < 2 ^ 63

instance (d : Int) : Decidable (IsInt64 d) := inferInstanceAs (Decidable (_ ∧ _))

/-! ## The x509 data the CA touches -/

/-- The named curves of `crypto/elliptic`. -/
inductive Curve
  | P224 | P256 | P384 | P521
  deriving DecidableEq

/-- The Go type `ecdsa.PublicKey`. -/
structure ECDSAPublicKey where
  Curve : Tls.Curve
  X : Int
  Y : Int
  deriving DecidableEq

/-- The Go type `ecdsa.PrivateKey`. -/
structure ECDSAPrivateKey where
  PublicKey : Tls.ECDSAPublicKey
  D : Int
  deriving DecidableEq

/-- The dynamic type of the `PublicKey interface{}` field of a certificate or a CSR. -/
inductive PublicKey
  | none
  | rsa (N : Int) (E : Int)
  | ed25519 (bytes : List Nat)
  | ecdsa (k : ECDSAPublicKey)
  deriving DecidableEq

/-- The Go type `pkix.Name` (the attribute fields). -/
structure Name where
  Country : List String := []
  Organization : List String := []
  OrganizationalUnit : List String := []
  Locality : List String := []
  Province : List String := []
  StreetAddress : List String := []
  PostalCode : List String := []
  SerialNumber : String := ""
  CommonName : String := ""
  deriving DecidableEq

/-- The Go type `pkix.Extension`. -/
structure Extension where
  Id : List Nat
  Critical : Bool
  Value : List Nat
  deriving DecidableEq

/-- The Go type `x509.SignatureAlgorithm`; the zero value is `UnknownSignatureAlgorithm`. -/
inductive SignatureAlgorithm
  | UnknownSignatureAlgorithm
  | MD2WithRSA | MD5WithRSA | SHA1WithRSA | SHA256WithRSA | SHA384WithRSA | SHA512WithRSA
  | DSAWithSHA1 | DSAWithSHA256
  | ECDSAWithSHA1 | ECDSAWithSHA256 | ECDSAWithSHA384 | ECDSAWithSHA512
  | SHA256WithRSAPSS | SHA384WithRSAPSS | SHA512WithRSAPSS
  | PureEd25519
  deriving DecidableEq

/-- The Go type `x509.ExtKeyUsage`. -/
inductive ExtKeyUsage
  | ExtKeyUsageAny | ExtKeyUsageServerAuth | ExtKeyUsageClientAuth | ExtKeyUsageCodeSigning
  | ExtKeyUsageEmailProtection | ExtKeyUsageTimeStamping | ExtKeyUsageOCSPSigning
  deriving DecidableEq

/-- The Go type `x509.KeyUsage`: a bit mask. -/
abbrev KeyUsage := Nat

/-- The bit `x509.KeyUsageDigitalSignature` (`1 << 0`). -/
def KeyUsageDigitalSignature : KeyUsage := 1

/-- The bit `x509.KeyUsageKeyEncipherment` (`1 << 2`). -/
def KeyUsageKeyEncipherment : KeyUsage := 4

/-- The bit `x509.KeyUsageCertSign` (`1 << 5`). -/
def KeyUsageCertSign : KeyUsage := 32

/-- The bit `x509.KeyUsageCRLSign` (`1 << 6`). -/
def KeyUsageCRLSign : KeyUsage := 64

/-- The fields of `x509.Certificate` that the CA reads or writes; the defaults are
the Go zero values. -/
structure Certificate where
  SerialNumber : Int
  SignatureAlgorithm : Tls.SignatureAlgorithm := .UnknownSignatureAlgorithm
  NotBefore : Time
  NotAfter : Time
  PublicKey : Tls.PublicKey := .none
  KeyUsage : Tls.KeyUsage := 0
  ExtKeyUsage : List Tls.ExtKeyUsage := []
  Issuer : Name := {}
  Subject : Name := {}
  Extensions : List Extension := []
  ExtraExtensions : List Extension := []
  DNSNames : List String := []
  EmailAddresses : List String := []
  IPAddresses : List (List Nat) := []
  URIs : List String := []
  IsCA : Bool := false
  MaxPathLen : Int := 0
  MaxPathLenZero : Bool := false
  BasicConstraintsValid : Bool := false
  deriving DecidableEq

/-- The fields of `x509.CertificateRequest` that `SignEndEntityCrt` reads. -/
structure CertificateRequest where
  Subject : Name := {}
  Extensions : List Extension := []
  ExtraExtensions : List Extension := []
  DNSNames : List String := []
  EmailAddresses : List String := []
  IPAddresses : List (List Nat) := []
  URIs : List String := []
  PublicKey : Tls.PublicKey := .none
  deriving DecidableEq

/-- The type `Crt` of the package: a certificate with its trust chain. -/
structure Crt where
  Certificate : Tls.Certificate
  TrustChain : List Tls.Certificate := []
  deriving DecidableEq

/-- The type `Cred` of the package: a private key with its certificate. -/
structure Cred where
  PrivateKey : ECDSAPrivateKey
  Crt : Tls.Crt
  deriving DecidableEq

/-- Go `error` values: the one `SignEndEntityCrt` builds itself, and those handed up
from the callees. -/
inductive Error
  | csrMustContainECDSAPublicKey (key : PublicKey)
  | upstream (msg : String)
  deriving DecidableEq

/-- The result of a function that returns `(value, error)` and may also panic. -/
inductive Outcome (α : Type)
  | ok (a : α)
  | error (e : Error)
  | panicked
  deriving DecidableEq

/-- The method `Cred.SignCrt`, which is defined in another file of the package. -/
abbrev Signer := Cred → Certificate → Except Error Crt

/-! ## Validity (ca.go, lines 40-77 and 243-256) -/

/-- The struct `Validity`. -/
structure Validity where
  Lifetime : Duration := 0
  ClockSkewAllowance : Duration := 0
  deriving DecidableEq

/-- The constant `DefaultLifetime`. -/
def DefaultLifetime : Duration := (24 * 365) * Hour

/-- The constant `DefaultClockSkewAllowance`. -/
def DefaultClockSkewAllowance : Duration := 2 * Hour

/-- The method `Validity.Window`. -/
def Validity.Window (v : Validity) (t : Time) : Time × Time :=
  let life := if v.Lifetime = 0 then DefaultLifetime else v.Lifetime
  let skew := if v.ClockSkewAllowance = 0 then DefaultClockSkewAllowance else v.ClockSkewAllowance
  let start := timeAdd t (durationNeg skew)
  let finish := timeAdd (timeAdd t life) skew
  (start, finish)

/-! ## The CA (ca.go) -/

/-- The struct `CA`; `nextSerialNumber` is a `uint64`. -/
structure CA where
  Cred : Tls.Cred
  Validity : Tls.Validity
  nextSerialNumber : Nat
  deriving DecidableEq

/-- The function `NewCA`. -/
def NewCA (cred : Cred) (validity : Validity) : CA :=
  { Cred := cred, Validity := validity, nextSerialNumber := 1 }

/-- The package-level function `createTemplate`; `now` is the reading of `time.Now()`. -/
def createTemplate (now : Time) (serialNumber : Nat) (k : ECDSAPublicKey) (v : Validity) :
    Certificate :=
  let window := v.Window now
  { SerialNumber := int64OfUint64 serialNumber
    SignatureAlgorithm := .ECDSAWithSHA256
    NotBefore := window.1
    NotAfter := window.2
    PublicKey := .ecdsa k
    KeyUsage := KeyUsageKeyEncipherment ||| KeyUsageDigitalSignature
    ExtKeyUsage := [.ExtKeyUsageServerAuth, .ExtKeyUsageClientAuth] }

/-- The method `CA.createTemplate`: the template and the CA after the increment. -/
def CA.createTemplate (ca : CA) (now : Time) (pubkey : ECDSAPublicKey) : Certificate × CA :=
  let c := Tls.createTemplate now ca.nextSerialNumber pubkey ca.Validity
  (c, { ca with nextSerialNumber := (ca.nextSerialNumber + 1) % 2 ^ 64 })

/-- Modelled from the spec: `validCredOrPanic` is defined in another file of the
package. A credential is a bound pair whose certificate carries the public half of
the private key; the function returns that pair, and `none` stands for the panic. -/
def validCredOrPanic (k : ECDSAPrivateKey) (crt : Crt) : Option Cred :=
  if crt.Certificate.PublicKey = .ecdsa k.PublicKey then some { PrivateKey := k, Crt := crt }
  else none

/-- The function `CreateRootCA`. The two x509 calls are arguments; `DER` is the type
of encoded certificates. -/
def CreateRootCA {DER : Type}
    (x509CreateCertificate :
      Certificate → Certificate → PublicKey → ECDSAPrivateKey → Except Error DER)
    (x509ParseCertificate : DER → Except Error Certificate)
    (now : Time) (name : String) (key : ECDSAPrivateKey) (validity : Validity) : Outcome CA :=
  let t := createTemplate now 1 key.PublicKey validity
  let t := { t with Subject := { CommonName := name } }
  let t := { t with IsCA := true }
  let t := { t with MaxPathLen := -1 }
  let t := { t with BasicConstraintsValid := true }
  let t := { t with KeyUsage := KeyUsageCertSign ||| KeyUsageCRLSign }
  match x509CreateCertificate t t (.ecdsa key.PublicKey) key with
  | .error err => .error err
  | .ok crtb =>
    match x509ParseCertificate crtb with
    | .error err => .error err
    | .ok c =>
      match validCredOrPanic key { Certificate := c } with
      | none => .panicked
      | some cred =>
        let ca := NewCA cred validity
        .ok { ca with nextSerialNumber := (ca.nextSerialNumber + 1) % 2 ^ 64 }

/-- The function `GenerateKey`; `ecdsaGenerateKey` is `ecdsa.GenerateKey` applied to
the random source. -/
def GenerateKey (ecdsaGenerateKey : Curve → Except Error ECDSAPrivateKey) :
    Except Error ECDSAPrivateKey :=
  ecdsaGenerateKey .P256

/-- The method `CA.GenerateCA`: the outcome and the parent CA after the call. -/
def CA.GenerateCA (ecdsaGenerateKey : Curve → Except Error ECDSAPrivateKey) (signCrt : Signer)
    (now : Time) (ca : CA) (name : String) (validity : Tls.Validity) (maxPathLen : Int) :
    Outcome CA × CA :=
  match GenerateKey ecdsaGenerateKey with
  | .error err => (.error err, ca)
  | .ok key =>
    let (t, ca) := ca.createTemplate now key.PublicKey
    let t := { t with Subject := { CommonName := name } }
    let t := { t with IsCA := true }
    let t := { t with MaxPathLen := maxPathLen }
    let t := { t with MaxPathLenZero := true }
    let t := { t with BasicConstraintsValid := true }
    let t := { t with KeyUsage := KeyUsageCertSign ||| KeyUsageCRLSign }
    match signCrt ca.Cred t with
    | .error err => (.error err, ca)
    | .ok crt =>
      match validCredOrPanic key crt with
      | none => (.panicked, ca)
      | some cred => (.ok (NewCA cred ca.Validity), ca)

/-- The method `CA.SignEndEntityCrt`: the result and the CA after the call. -/
def CA.SignEndEntityCrt (signCrt : Signer) (now : Time) (ca : CA) (csr : CertificateRequest) :
    Except Error Crt × CA :=
  match csr.PublicKey with
  | .ecdsa pubkey =>
    let (t, ca) := ca.createTemplate now pubkey
    let t := { t with Issuer := ca.Cred.Crt.Certificate.Subject }
    let t := { t with Subject := csr.Subject }
    let t := { t with Extensions := csr.Extensions }
    let t := { t with ExtraExtensions := csr.ExtraExtensions }
    let t := { t with DNSNames := csr.DNSNames }
    let t := { t with EmailAddresses := csr.EmailAddresses }
    let t := { t with IPAddresses := csr.IPAddresses }
    let t := { t with URIs := csr.URIs }
    (signCrt ca.Cred t, ca)
  | key => (.error (.csrMustContainECDSAPublicKey key), ca)

/-! ## The validity of the identity service (main.go, lines 75-92) -/

/-- The protobuf message `duration.Duration`. -/
structure PbDuration where
  Seconds : Int
  Nanos : Int
  deriving DecidableEq

/-- The two fields of the identity context that `main` reads for the validity; `none`
is the nil message of an option the configuration does not give. -/
structure IdentityContext where
  ClockSkewAllowance : Option PbDuration := none
  IssuanceLifetime : Option PbDuration := none
  deriving DecidableEq

/-- The `Validity` that `main` hands to `NewCA`; `ptypesDuration` is `ptypes.Duration`. -/
def mainValidity (ptypesDuration : PbDuration → Except Error Duration)
    (idctx : IdentityContext) : Validity :=
  let csa := 0 * Minute
  let csa :=
    match idctx.ClockSkewAllowance with
    | some pbd =>
      match ptypesDuration pbd with
      | .ok d => d
      | .error _ => csa
    | none => csa
  let il := 24 * Hour
  let il :=
    match idctx.IssuanceLifetime with
    | some pbd =>
      match ptypesDuration pbd with
      | .ok d => d
      | .error _ => il
    | none => il
  { ClockSkewAllowance := csa, Lifetime := il }

/-! ## Sequences of signing calls -/

/-- One call of `SignEndEntityCrt` as the environment determines it: the behaviour of
the signer during the call, the clock reading and the request. -/
structure Call where
  signCrt : Signer
  now : Time
  csr : CertificateRequest

/-- The signer of the call copies the serial number of the template into the
certificate it returns (as `x509.CreateCertificate` does). -/
def Call.KeepsSerial (c : Call) : Prop :=
  ∀ cred t crt, c.signCrt cred t = .ok crt → crt.Certificate.SerialNumber = t.SerialNumber

/-- The key of the request of the call is not an ECDSA key. -/
def Call.KeyRejected (c : Call) : Prop := ∀ k, c.csr.PublicKey ≠ .ecdsa k

/-- The result of a call that is rejected for its key. -/
def Call.rejection (c : Call) : Except Error Crt :=
  .error (.csrMustContainECDSAPublicKey c.csr.PublicKey)

/-- The calls of a list made one after the other on one CA: the results in order and
the CA after the last call. -/
def CA.signAll (ca : CA) : List Call → List (Except Error Crt) × CA
  | [] => ([], ca)
  | c :: cs =>
    let r := ca.SignEndEntityCrt c.signCrt c.now c.csr
    let rest := r.2.signAll cs
    (r.1 :: rest.1, rest.2)

/-- The serial numbers of the certificates issued by the successful calls, in order. -/
def issuedSerials (rs : List (Except Error Crt)) : List Int :=
  rs.filterMap fun r =>
    match r with
    | .ok crt => some crt.Certificate.SerialNumber
    | .error _ => none

/-! ## The formulas of the specification -/

/-- The effective duration in the words of the specification: the value when it is
positive, the default otherwise. -/
def effectivePositive (d dflt : Duration) : Duration := if d > 0 then d else dflt

/-- The effective duration as `Window` computes it: the default for zero only. -/
def effectiveNonzero (d dflt : Duration) : Duration := if d = 0 then dflt else d

/-- The window in the words of the specification, for a given reading of `effective`. -/
def windowFormula (effective : Duration → Duration → Duration) (v : Validity) (now : Time) :
    Time × Time :=
  (now - effective v.ClockSkewAllowance DefaultClockSkewAllowance,
   now + effective v.Lifetime DefaultLifetime
     + effective v.ClockSkewAllowance DefaultClockSkewAllowance)

/-- The end-entity template in the words of the specification: the fixed algorithm
and usages, the window of the CA, the serial taken from the counter (through the
`int64` conversion of the code), the issuer, and the fields copied from the CSR. -/
def leafTemplate (ca : CA) (now : Time) (csr : CertificateRequest) (k : ECDSAPublicKey) :
    Certificate :=
  { SerialNumber := int64OfUint64 ca.nextSerialNumber
    SignatureAlgorithm := .ECDSAWithSHA256
    NotBefore := (ca.Validity.Window now).1
    NotAfter := (ca.Validity.Window now).2
    PublicKey := .ecdsa k
    KeyUsage := KeyUsageDigitalSignature ||| KeyUsageKeyEncipherment
    ExtKeyUsage := [.ExtKeyUsageServerAuth, .ExtKeyUsageClientAuth]
    Issuer := ca.Cred.Crt.Certificate.Subject
    Subject := csr.Subject
    Extensions := csr.Extensions
    ExtraExtensions := csr.ExtraExtensions
    DNSNames := csr.DNSNames
    EmailAddresses := csr.EmailAddresses
    IPAddresses := csr.IPAddresses
    URIs := csr.URIs }

/-- The CA state after one increment of the serial counter. -/
def CA.bumped (ca : CA) : CA :=
  { ca with nextSerialNumber := (ca.nextSerialNumber + 1) % 2 ^ 64 }

/-- The CA-shaped template: the base template with the subject, the CA flag, the basic
constraints and a key usage given by the caller. -/
def shapedTemplate (now : Time) (serialNumber : Nat) (k : ECDSAPublicKey) (v : Validity)
    (name : String) (maxPathLen : Int) (maxPathLenZero : Bool) (usage : KeyUsage) :
    Certificate :=
  { SerialNumber := int64OfUint64 serialNumber
    SignatureAlgorithm := .ECDSAWithSHA256
    NotBefore := (v.Window now).1
    NotAfter := (v.Window now).2
    PublicKey := .ecdsa k
    KeyUsage := usage
    ExtKeyUsage := [.ExtKeyUsageServerAuth, .ExtKeyUsageClientAuth]
    Subject := { CommonName := name }
    IsCA := true
    MaxPathLen := maxPathLen
    MaxPathLenZero := maxPathLenZero
    BasicConstraintsValid := true }

/-- The key usage of a CA template in the words of the specification: the usages of
the base template with `certSign | crlSign` OR-ed in. -/
def caUsageAdded : KeyUsage :=
  (KeyUsageDigitalSignature ||| KeyUsageKeyEncipherment) ||| (KeyUsageCertSign ||| KeyUsageCRLSign)

/-- The key usage of a CA template as the code assigns it: `certSign | crlSign` alone. -/
def caUsageReplaced : KeyUsage := KeyUsageCertSign ||| KeyUsageCRLSign

/-! ## Concrete values -/

/-- A P-256 key pair. -/
def sampleKey : ECDSAPrivateKey := { PublicKey := { Curve := .P256, X := 3, Y := 5 }, D := 7 }

/-- A P-384 public key. -/
def sampleP384Key : ECDSAPublicKey := { Curve := .P384, X := 11, Y := 13 }

/-- A credential: the key pair with a certificate for it. -/
def sampleCred : Cred :=
  { PrivateKey := sampleKey
    Crt := { Certificate :=
      { SerialNumber := 1, NotBefore := 0, NotAfter := 10, PublicKey := .ecdsa sampleKey.PublicKey,
        Subject := { CommonName := "identity.linkerd.cluster.local" }, IsCA := true } } }

/-- A signer that returns the template it is given as the certificate. -/
def echoSigner : Signer := fun _ t => .ok { Certificate := t }

/-- A signer that always fails. -/
def failingSigner : Signer := fun _ _ => .error (.upstream "signing failed")

/-- A request with a P-256 key. -/
def sampleCSR : CertificateRequest :=
  { Subject := { CommonName := "books.emojivoto" }
    DNSNames := ["books.emojivoto.serviceaccount.identity.linkerd.cluster.local"]
    PublicKey := .ecdsa { Curve := .P256, X := 17, Y := 19 } }

/-- A request with a P-384 ECDSA key. -/
def p384CSR : CertificateRequest :=
  { Subject := { CommonName := "books.emojivoto" }, PublicKey := .ecdsa sampleP384Key }

/-- A request with an RSA key. -/
def rsaCSR : CertificateRequest :=
  { Subject := { CommonName := "books.emojivoto" }, PublicKey := .rsa 3233 17 }

/-- A fresh CA over the sample credential, as `NewCA` returns it. -/
def sampleCA : CA := NewCA sampleCred {}

/-- A CA state with the given value of the serial counter. -/
def caAt (n : Nat) : CA := { Cred := sampleCred, Validity := {}, nextSerialNumber := n }

/-- An `ecdsa.GenerateKey` that returns the sample key pair. -/
def sampleGenerateKey : Curve → Except Error ECDSAPrivateKey := fun _ => .ok sampleKey

/-- An `x509.CreateCertificate` whose encoding of a certificate is the template itself. -/
def echoCreateCertificate :
    Certificate → Certificate → PublicKey → ECDSAPrivateKey → Except Error Certificate :=
  fun t _ _ _ => .ok t

/-- The `x509.ParseCertificate` that goes with `echoCreateCertificate`. -/
def echoParseCertificate : Certificate → Except Error Certificate := fun c => .ok c

/-- The root CA that `CreateRootCA` returns for the sample key with the echoing x509. -/
def sampleRootCA : CA :=
  { Cred :=
      { PrivateKey := sampleKey
        Crt := { Certificate :=
          shapedTemplate 1000 1 sampleKey.PublicKey {} "root" (-1) false caUsageReplaced } }
    Validity := {}
    nextSerialNumber := 2 }

/-- The last second that `time.Time` can hold: its second count from year 1 is the
largest `int64`. -/
def endOfTime : Time := (2 ^ 63 - 1 - unixToInternal) * 1000000000

/-- A `ptypes.Duration` that converts every message. -/
def samplePtypesDuration : PbDuration → Except Error Duration :=
  fun pbd => .ok (pbd.Seconds * 1000000000 + pbd.Nanos)

/-- A call with an accepted key whose signing step fails. -/
def failingCall : Call := { signCrt := failingSigner, now := 1000, csr := sampleCSR }

/-- A call whose key is rejected. -/
def rejectedCall : Call := { signCrt := echoSigner, now := 1000, csr := rsaCSR }

/-- A successful call. -/
def sampleCall : Call := { signCrt := echoSigner, now := 1000, csr := sampleCSR }

/-! ## Machine-integer lemmas -/

theorem wrapInt64_of_isInt64 {x : Int} (h : IsInt64 x) : wrapInt64 x = x := by
  unfold IsInt64 at h
  unfold wrapInt64
  omega

theorem int64OfUint64_of_lt {n : Nat} (h : n < 2 ^ 63) : int64OfUint64 n = (n : Int) := by
  apply wrapInt64_of_isInt64
  unfold IsInt64
  omega

theorem durationNeg_of_gt {d : Int} (h1 : -2 ^ 63 < d) (h2 : d < 2 ^ 63) :
    durationNeg d = -d := by
  apply wrapInt64_of_isInt64
  unfold IsInt64
  omega

/-! ## The validity window -/

theorem tmod_bounds (d : Int) :
    d = 1000000000 * Int.tdiv d 1000000000 + Int.tmod d 1000000000 ∧
    -1000000000 < Int.tmod d 1000000000 ∧ Int.tmod d 1000000000 < 1000000000 := by
  have h0 := Int.tmod_lt_of_pos d (b := 1000000000) (by decide)
  have h := Int.tmod_lt_of_pos (-d) (b := 1000000000) (by decide)
  have h1 := Int.tdiv_add_tmod d 1000000000
  have h2 := Int.tdiv_add_tmod (-d) 1000000000
  rw [Int.neg_tdiv] at h2
  omega

/-- When the sum is a representable time, `Time.Add` is exact. -/
theorem timeAdd_exact (t d : Int) (h : Representable (t + d)) :
    timeAdd t d = t + d := by
  obtain ⟨hd, hlo, hhi⟩ := tmod_bounds d
  unfold Representable unixToInternal at h
  unfold timeAdd unixToInternal
  generalize Int.tdiv d 1000000000 = q at *
  generalize Int.tmod d 1000000000 = r at *
  subst hd
  simp only []
  split_ifs <;> omega

theorem representable_between {a b c : Int} (ha : Representable a) (hc : Representable c)
    (hab : a ≤ b) (hbc : b ≤ c) : Representable b := by
  unfold Representable unixToInternal at *
  omega

theorem window_eq (v : Validity) (now : Time) :
    v.Window now =
      (timeAdd now
         (durationNeg (effectiveNonzero v.ClockSkewAllowance DefaultClockSkewAllowance)),
       timeAdd (timeAdd now (effectiveNonzero v.Lifetime DefaultLifetime))
         (effectiveNonzero v.ClockSkewAllowance DefaultClockSkewAllowance)) := by
  simp [Validity.Window, effectiveNonzero]

/-- C5 (as stated, refuted): with `effective(d) = d if d > 0 else default` the window
formula fails on the code. For a lifetime of minus one hour and no skew, at time 0,
`Window` ends one hour after 0 (the negative lifetime is used as it is), while the
formula asks for the default lifetime plus the default skew, 8762 hours. For a skew
of -2^63 nanoseconds, whose `int64` negation is -2^63 again, `Window` starts at
-2^63, which is neither the start of the formula of the specification (minus two
hours) nor that of the formula with `effective(d) = d if d != 0` (plus 2^63). And at
the last second of `time.Time`, for a lifetime of one hour and a skew of one minute,
`Time.Add` saturates and the window ends at `now`, not at `now` plus 61 minutes. -/
theorem C5_window_positive_formula_fails :
    ({ Lifetime := -Hour, ClockSkewAllowance := 0 } : Validity).Window 0 = (-(2 * Hour), Hour) ∧
    windowFormula effectivePositive { Lifetime := -Hour, ClockSkewAllowance := 0 } 0
      = (-(2 * Hour), 8762 * Hour) ∧
    ({ Lifetime := -Hour, ClockSkewAllowance := 0 } : Validity).Window 0
      ≠ windowFormula effectivePositive { Lifetime := -Hour, ClockSkewAllowance := 0 } 0 ∧
    (({ Lifetime := Hour, ClockSkewAllowance := -2 ^ 63 } : Validity).Window 0).1 = -2 ^ 63 ∧
    (windowFormula effectivePositive { Lifetime := Hour, ClockSkewAllowance := -2 ^ 63 } 0).1
      = -(2 * Hour) ∧
    (windowFormula effectiveNonzero { Lifetime := Hour, ClockSkewAllowance := -2 ^ 63 } 0).1
      = 2 ^ 63 ∧
    Representable endOfTime ∧
    ({ Lifetime := Hour, ClockSkewAllowance := Minute } : Validity).Window endOfTime
      = (endOfTime - Minute, endOfTime) ∧
    windowFormula effectivePositive { Lifetime := Hour, ClockSkewAllowance := Minute } endOfTime
      = (endOfTime - Minute, endOfTime + Hour + Minute) ∧
    windowFormula effectiveNonzero { Lifetime := Hour, ClockSkewAllowance := Minute } endOfTime
      = (endOfTime - Minute, endOfTime + Hour + Minute) := by
  decide

/-- C5 (amended): for every time `now` and every Validity `v` whose ClockSkewAllowance
is an `int64` other than the minimum (whose negation overflows), if the three times
that `Window` computes, `now - effective(skew)`, `now + effective(lifetime)` and
`now + effective(lifetime) + effective(skew)`, are within the range of `time.Time`
(their second count from year 1 is an `int64`), then
`Window(now) = (now - effective(skew), now + effective(lifetime) + effective(skew))`
where `effective(d) = d` if `d` is not zero and the default (8760 h for Lifetime, 2 h
for ClockSkewAllowance) if it is zero; negative durations are used as they are. -/
theorem C5_window_nonzero_formula (v : Validity) (now : Time)
    (hlo : -2 ^ 63 < v.ClockSkewAllowance) (hhi : v.ClockSkewAllowance < 2 ^ 63)
    (hstart : Representable
      (now - effectiveNonzero v.ClockSkewAllowance DefaultClockSkewAllowance))
    (hmid : Representable (now + effectiveNonzero v.Lifetime DefaultLifetime))
    (hend : Representable
      (now + effectiveNonzero v.Lifetime DefaultLifetime
        + effectiveNonzero v.ClockSkewAllowance DefaultClockSkewAllowance)) :
    v.Window now = windowFormula effectiveNonzero v now ∧
    DefaultLifetime = 8760 * Hour ∧ DefaultClockSkewAllowance = 2 * Hour := by
  refine ⟨?_, by decide, by decide⟩
  rw [window_eq, windowFormula]
  have hneg : durationNeg (effectiveNonzero v.ClockSkewAllowance DefaultClockSkewAllowance)
      = -(effectiveNonzero v.ClockSkewAllowance DefaultClockSkewAllowance) := by
    apply durationNeg_of_gt
    · unfold effectiveNonzero
      split
      · decide
      · exact hlo
    · unfold effectiveNonzero
      split
      · decide
      · exact hhi
  rw [hneg, timeAdd_exact now _ (by rw [← Int.sub_eq_add_neg]; exact hstart),
    timeAdd_exact now _ hmid, timeAdd_exact _ _ hend, ← Int.sub_eq_add_neg]

theorem C5_window_nonzero_formula_witness :
    ({ Lifetime := -Hour, ClockSkewAllowance := 3 * Minute } : Validity).Window 1000
      = windowFormula effectiveNonzero { Lifetime := -Hour, ClockSkewAllowance := 3 * Minute } 1000 ∧
    DefaultLifetime = 8760 * Hour ∧ DefaultClockSkewAllowance = 2 * Hour :=
  C5_window_nonzero_formula { Lifetime := -Hour, ClockSkewAllowance := 3 * Minute } 1000
    (by decide) (by decide) (by decide) (by decide) (by decide)

/-- C9 (as stated, refuted): at the last second of `time.Time` the window of the
Validity that `main` builds without overrides starts two hours before `now` and ends
at `now`, because `Time.Add` saturates: NotAfter - NotBefore is 2 h, not 28 h, and
NotAfter is not `now + 26 h`. -/
theorem C9_window_saturates_at_end_of_time :
    Representable endOfTime ∧
    (mainValidity samplePtypesDuration {}).Window endOfTime
      = (endOfTime - 2 * Hour, endOfTime) ∧
    ((mainValidity samplePtypesDuration {}).Window endOfTime).2
      - ((mainValidity samplePtypesDuration {}).Window endOfTime).1 = 2 * Hour ∧
    ((mainValidity samplePtypesDuration {}).Window endOfTime).2 ≠ endOfTime + 26 * Hour ∧
    (2 * Hour : Int) ≠ 28 * Hour := by
  decide

/-- C9 (amended): with no overrides in the configuration `main` builds the Validity
with Lifetime = 24 h and ClockSkewAllowance = 0, and for every time `now` such that
`now - 2 h` and `now + 26 h` are within the range of `time.Time` (their second count
from year 1 is an `int64`) its window is `(now - 2 h, now + 26 h)`, so that
NotAfter - NotBefore = 24 h + 2 x 2 h = 28 h. -/
theorem C9_identity_default_window (ptypesDuration : PbDuration → Except Error Duration)
    (now : Time) (hstart : Representable (now - 2 * Hour))
    (hend : Representable (now + 26 * Hour)) :
    mainValidity ptypesDuration {} = { Lifetime := 24 * Hour, ClockSkewAllowance := 0 } ∧
    (mainValidity ptypesDuration {}).Window now = (now - 2 * Hour, now + 26 * Hour) ∧
    ((mainValidity ptypesDuration {}).Window now).2
      - ((mainValidity ptypesDuration {}).Window now).1 = 24 * Hour + 2 * (2 * Hour) ∧
    24 * Hour + 2 * (2 * Hour) = 28 * Hour := by
  have hv : mainValidity ptypesDuration {} = { Lifetime := 24 * Hour, ClockSkewAllowance := 0 } := by
    simp [mainValidity]
  have hH : Hour = 3600000000000 := rfl
  have hmid : Representable (now + 24 * Hour) :=
    representable_between hstart hend (by rw [hH]; omega) (by rw [hH]; omega)
  have hw : (mainValidity ptypesDuration {}).Window now = (now - 2 * Hour, now + 26 * Hour) := by
    rw [hv, window_eq]
    have h1 : effectiveNonzero (0 : Duration) DefaultClockSkewAllowance = 2 * Hour := by decide
    have h2 : effectiveNonzero (24 * Hour) DefaultLifetime = 24 * Hour := by decide
    have h3 : durationNeg (2 * Hour) = -(2 * Hour) := by decide
    simp only [h1, h2, h3]
    rw [timeAdd_exact now (-(2 * Hour)) (by rw [← Int.sub_eq_add_neg]; exact hstart),
      timeAdd_exact now (24 * Hour) hmid,
      timeAdd_exact (now + 24 * Hour) (2 * Hour)
        (by rw [show now + 24 * Hour + 2 * Hour = now + 26 * Hour by ring]; exact hend)]
    ext
    · simp only []
      ring
    · simp only []
      ring
  refine ⟨hv, hw, ?_, by decide⟩
  rw [hw]
  simp only []
  ring

theorem C9_identity_default_window_witness :
    mainValidity samplePtypesDuration {} = { Lifetime := 24 * Hour, ClockSkewAllowance := 0 } ∧
    (mainValidity samplePtypesDuration {}).Window 1000 = (1000 - 2 * Hour, 1000 + 26 * Hour) ∧
    ((mainValidity samplePtypesDuration {}).Window 1000).2
      - ((mainValidity samplePtypesDuration {}).Window 1000).1 = 24 * Hour + 2 * (2 * Hour) ∧
    24 * Hour + 2 * (2 * Hour) = 28 * Hour :=
  C9_identity_default_window samplePtypesDuration 1000 (by decide) (by decide)

/-! ## One call of `SignEndEntityCrt` -/

theorem signEndEntityCrt_ecdsa (signCrt : Signer) (now : Time) (ca : CA)
    (csr : CertificateRequest) (k : ECDSAPublicKey) (hkey : csr.PublicKey = .ecdsa k) :
    ca.SignEndEntityCrt signCrt now csr = (signCrt ca.Cred (leafTemplate ca now csr k), ca.bumped) := by
  simp only [CA.SignEndEntityCrt, hkey, CA.createTemplate, createTemplate, leafTemplate,
    CA.bumped]
  rfl

theorem signEndEntityCrt_rejected (signCrt : Signer) (now : Time) (ca : CA)
    (csr : CertificateRequest) (hkey : ∀ k, csr.PublicKey ≠ .ecdsa k) :
    ca.SignEndEntityCrt signCrt now csr
      = (.error (.csrMustContainECDSAPublicKey csr.PublicKey), ca) := by
  unfold CA.SignEndEntityCrt
  split
  · next k hk => exact absurd hk (hkey k)
  · rfl

theorem key_cases (key : PublicKey) : (∃ k, key = .ecdsa k) ∨ ∀ k, key ≠ .ecdsa k := by
  cases key with
  | ecdsa k => exact Or.inl ⟨k, rfl⟩
  | none => exact Or.inr (fun k h => by cases h)
  | rsa N E => exact Or.inr (fun k h => by cases h)
  | ed25519 b => exact Or.inr (fun k h => by cases h)

/-! ## Errors and the serial counter -/

/-- C1 (as stated, refuted): on a fresh CA (counter 1) a call whose CSR key is accepted
and whose signing step fails returns the error of the signer, and the counter is 2
after the call: the increment happens when the template is built, before signing. -/
theorem C1_failed_signing_consumes_serial :
    (sampleCA.SignEndEntityCrt failingSigner 1000 sampleCSR).1
      = .error (.upstream "signing failed") ∧
    sampleCA.nextSerialNumber = 1 ∧
    (sampleCA.SignEndEntityCrt failingSigner 1000 sampleCSR).2.nextSerialNumber = 2 := by
  refine ⟨rfl, rfl, ?_⟩
  rw [signEndEntityCrt_ecdsa failingSigner 1000 sampleCA sampleCSR _ rfl]
  decide

/-- C1 (amended): if SignEndEntityCrt returns an error because the CSR key is rejected
(it is not an ECDSA key), the CA after the call is the CA before it, so nextSerialNumber
is unchanged; if it returns an error for an accepted key, the error is that of
Cred.SignCrt on the template already built, and nextSerialNumber has been incremented
(as a uint64): the counter is incremented before signing, not after it. -/
theorem C1_error_and_counter (signCrt : Signer) (now : Time) (ca : CA)
    (csr : CertificateRequest) (e : Error)
    (herr : (ca.SignEndEntityCrt signCrt now csr).1 = .error e) :
    ((∀ k, csr.PublicKey ≠ .ecdsa k) →
      (ca.SignEndEntityCrt signCrt now csr).2 = ca ∧
      (ca.SignEndEntityCrt signCrt now csr).2.nextSerialNumber = ca.nextSerialNumber) ∧
    (∀ k, csr.PublicKey = .ecdsa k →
      signCrt ca.Cred (leafTemplate ca now csr k) = .error e ∧
      (ca.SignEndEntityCrt signCrt now csr).2.nextSerialNumber
        = (ca.nextSerialNumber + 1) % 2 ^ 64) := by
  constructor
  · intro hkey
    rw [signEndEntityCrt_rejected signCrt now ca csr hkey]
    exact ⟨rfl, rfl⟩
  · intro k hkey
    rw [signEndEntityCrt_ecdsa signCrt now ca csr k hkey] at herr ⊢
    exact ⟨herr, rfl⟩

theorem C1_error_and_counter_witness :
    (sampleCA.SignEndEntityCrt failingSigner 1000 rsaCSR).2.nextSerialNumber
      = sampleCA.nextSerialNumber ∧
    (sampleCA.SignEndEntityCrt failingSigner 1000 sampleCSR).2.nextSerialNumber
      = (sampleCA.nextSerialNumber + 1) % 2 ^ 64 :=
  ⟨((C1_error_and_counter failingSigner 1000 sampleCA rsaCSR
      (.csrMustContainECDSAPublicKey (.rsa 3233 17)) rfl).1 (fun k h => by cases h)).2,
   ((C1_error_and_counter failingSigner 1000 sampleCA sampleCSR
      (.upstream "signing failed") rfl).2 _ rfl).2⟩

/-! ## Accepted keys -/

/-- C4 (as stated, refuted): a CSR whose key is an ECDSA key on P-384 is accepted. The
template is built and handed to the signer, the call succeeds with the echoing
signer, and the counter of the fresh CA goes from 1 to 2. -/
theorem C4_p384_key_accepted :
    sampleP384Key.Curve ≠ .P256 ∧
    p384CSR.PublicKey = .ecdsa sampleP384Key ∧
    (sampleCA.SignEndEntityCrt echoSigner 1000 p384CSR).1
      = .ok { Certificate := leafTemplate sampleCA 1000 p384CSR sampleP384Key } ∧
    (sampleCA.SignEndEntityCrt echoSigner 1000 p384CSR).2.nextSerialNumber = 2 := by
  refine ⟨by decide, rfl, ?_, ?_⟩
  · rw [signEndEntityCrt_ecdsa echoSigner 1000 sampleCA p384CSR sampleP384Key rfl]
    rfl
  · rw [signEndEntityCrt_ecdsa echoSigner 1000 sampleCA p384CSR sampleP384Key rfl]
    decide

/-- C4 (amended): SignEndEntityCrt accepts a CSR exactly when its public key is an
ECDSA key, of any curve. For every CSR whose key is anything else (RSA, Ed25519, no
key) it returns the unsupported-key error whatever the signer is, builds no template
and leaves the CA as it was; for every CSR with an ECDSA key it builds the template,
hands it to the signer and advances the counter. -/
theorem C4_accepts_exactly_ecdsa (signCrt : Signer) (now : Time) (ca : CA)
    (csr : CertificateRequest) :
    ((∀ k, csr.PublicKey ≠ .ecdsa k) →
      ca.SignEndEntityCrt signCrt now csr
        = (.error (.csrMustContainECDSAPublicKey csr.PublicKey), ca)) ∧
    (∀ k, csr.PublicKey = .ecdsa k →
      ca.SignEndEntityCrt signCrt now csr
        = (signCrt ca.Cred (leafTemplate ca now csr k), ca.bumped)) :=
  ⟨signEndEntityCrt_rejected signCrt now ca csr,
   fun k hkey => signEndEntityCrt_ecdsa signCrt now ca csr k hkey⟩

theorem C4_accepts_exactly_ecdsa_witness :
    sampleCA.SignEndEntityCrt echoSigner 1000 rsaCSR
      = (.error (.csrMustContainECDSAPublicKey (.rsa 3233 17)), sampleCA) ∧
    sampleCA.SignEndEntityCrt echoSigner 1000 sampleCSR
      = (echoSigner sampleCA.Cred
          (leafTemplate sampleCA 1000 sampleCSR { Curve := .P256, X := 17, Y := 19 }),
         sampleCA.bumped) :=
  ⟨(C4_accepts_exactly_ecdsa echoSigner 1000 sampleCA rsaCSR).1 (fun k h => by cases h),
   (C4_accepts_exactly_ecdsa echoSigner 1000 sampleCA sampleCSR).2 _ rfl⟩

/-! ## The templates -/

theorem generateCA_eq (ecdsaGenerateKey : Curve → Except Error ECDSAPrivateKey)
    (signCrt : Signer) (now : Time) (ca : CA) (name : String) (validity : Validity)
    (maxPathLen : Int) :
    ca.GenerateCA ecdsaGenerateKey signCrt now name validity maxPathLen =
      match ecdsaGenerateKey .P256 with
      | .error err => (.error err, ca)
      | .ok key =>
        (match signCrt ca.Cred (shapedTemplate now ca.nextSerialNumber key.PublicKey ca.Validity
            name maxPathLen true caUsageReplaced) with
         | .error err => .error err
         | .ok crt =>
           match validCredOrPanic key crt with
           | none => .panicked
           | some cred => .ok (NewCA cred ca.Validity),
         ca.bumped) := by
  unfold CA.GenerateCA GenerateKey
  cases hgen : ecdsaGenerateKey .P256 with
  | error err => rfl
  | ok key =>
    simp only [CA.createTemplate, createTemplate, shapedTemplate, caUsageReplaced, CA.bumped]
    cases signCrt ca.Cred _ with
    | error err => rfl
    | ok crt =>
      simp only []
      cases validCredOrPanic key crt with
      | none => rfl
      | some cred => rfl

theorem createRootCA_eq {DER : Type}
    (x509CreateCertificate :
      Certificate → Certificate → PublicKey → ECDSAPrivateKey → Except Error DER)
    (x509ParseCertificate : DER → Except Error Certificate)
    (now : Time) (name : String) (key : ECDSAPrivateKey) (validity : Validity) :
    CreateRootCA x509CreateCertificate x509ParseCertificate now name key validity =
      match x509CreateCertificate
          (shapedTemplate now 1 key.PublicKey validity name (-1) false caUsageReplaced)
          (shapedTemplate now 1 key.PublicKey validity name (-1) false caUsageReplaced)
          (.ecdsa key.PublicKey) key with
      | .error err => .error err
      | .ok crtb =>
        match x509ParseCertificate crtb with
        | .error err => .error err
        | .ok c =>
          match validCredOrPanic key { Certificate := c } with
          | none => .panicked
          | some cred => .ok { Cred := cred, Validity := validity, nextSerialNumber := 2 } := by
  rfl

theorem validCredOrPanic_some {k : ECDSAPrivateKey} {crt : Crt} {cred : Cred}
    (h : validCredOrPanic k crt = some cred) : cred = { PrivateKey := k, Crt := crt } := by
  unfold validCredOrPanic at h
  split at h
  · exact (Option.some.inj h).symm
  · cases h

/-- C6 (as stated, refuted): for the CA state whose counter is 2^63 the template handed
to the signer has the serial number -2^63 (the `int64` conversion of the counter),
which is not the value of the counter. -/
theorem C6_serial_differs_from_counter :
    (caAt (2 ^ 63)).nextSerialNumber = 2 ^ 63 ∧
    ((caAt (2 ^ 63)).SignEndEntityCrt echoSigner 1000 sampleCSR).1
      = .ok { Certificate :=
          leafTemplate (caAt (2 ^ 63)) 1000 sampleCSR { Curve := .P256, X := 17, Y := 19 } } ∧
    (leafTemplate (caAt (2 ^ 63)) 1000 sampleCSR { Curve := .P256, X := 17, Y := 19 }).SerialNumber
      = -2 ^ 63 ∧
    (-2 ^ 63 : Int) ≠ (((caAt (2 ^ 63)).nextSerialNumber : Nat) : Int) := by
  refine ⟨rfl, ?_, by decide, by decide⟩
  rw [signEndEntityCrt_ecdsa echoSigner 1000 (caAt (2 ^ 63)) sampleCSR _ rfl]
  rfl

/-- C6 (amended): for every CA state, every clock reading `now` and every CSR with an
accepted (ECDSA) key, SignEndEntityCrt hands to the signer a template with
SerialNumber = int64(nextSerialNumber before the call), which is nextSerialNumber
itself whenever that is below 2^63, SignatureAlgorithm = ECDSA-with-SHA-256,
KeyUsage = digitalSignature | keyEncipherment, ExtKeyUsage = [serverAuth, clientAuth],
(NotBefore, NotAfter) = ca.Validity.Window(now), Issuer = the Subject of the CA
certificate, and Subject, DNSNames, IPAddresses, URIs, EmailAddresses, Extensions and
ExtraExtensions equal to those of the CSR. -/
theorem C6_leaf_template (signCrt : Signer) (now : Time) (ca : CA) (csr : CertificateRequest)
    (k : ECDSAPublicKey) (hkey : csr.PublicKey = .ecdsa k) :
    ca.SignEndEntityCrt signCrt now csr
      = (signCrt ca.Cred (leafTemplate ca now csr k), ca.bumped) ∧
    (leafTemplate ca now csr k).SerialNumber = int64OfUint64 ca.nextSerialNumber ∧
    (ca.nextSerialNumber < 2 ^ 63 →
      (leafTemplate ca now csr k).SerialNumber = (ca.nextSerialNumber : Int)) ∧
    (leafTemplate ca now csr k).SignatureAlgorithm = .ECDSAWithSHA256 ∧
    (leafTemplate ca now csr k).KeyUsage = KeyUsageDigitalSignature ||| KeyUsageKeyEncipherment ∧
    (leafTemplate ca now csr k).ExtKeyUsage = [.ExtKeyUsageServerAuth, .ExtKeyUsageClientAuth] ∧
    ((leafTemplate ca now csr k).NotBefore, (leafTemplate ca now csr k).NotAfter)
      = ca.Validity.Window now ∧
    (leafTemplate ca now csr k).Issuer = ca.Cred.Crt.Certificate.Subject ∧
    (leafTemplate ca now csr k).Subject = csr.Subject ∧
    (leafTemplate ca now csr k).DNSNames = csr.DNSNames ∧
    (leafTemplate ca now csr k).IPAddresses = csr.IPAddresses ∧
    (leafTemplate ca now csr k).URIs = csr.URIs ∧
    (leafTemplate ca now csr k).EmailAddresses = csr.EmailAddresses ∧
    (leafTemplate ca now csr k).Extensions = csr.Extensions ∧
    (leafTemplate ca now csr k).ExtraExtensions = csr.ExtraExtensions ∧
    (leafTemplate ca now csr k).PublicKey = .ecdsa k ∧
    (leafTemplate ca now csr k).IsCA = false := by
  refine ⟨signEndEntityCrt_ecdsa signCrt now ca csr k hkey, rfl, ?_, rfl, rfl, rfl, rfl, rfl,
    rfl, rfl, rfl, rfl, rfl, rfl, rfl, rfl, rfl⟩
  intro hlt
  exact int64OfUint64_of_lt hlt

/-- C7 (as stated, refuted): the CA templates of GenerateCA and of CreateRootCA carry
the key usage certSign | crlSign = 96 alone. The usages of the base template are
overwritten, not kept: the claimed value is 1 | 4 | 32 | 64 = 101. -/
theorem C7_ca_usage_drops_base_usages :
    (sampleCA.GenerateCA sampleGenerateKey echoSigner 1000 "child" {} 0).1
      = .ok (NewCA
          { PrivateKey := sampleKey
            Crt := { Certificate :=
              shapedTemplate 1000 1 sampleKey.PublicKey {} "child" 0 true caUsageReplaced } }
          {}) ∧
    CreateRootCA echoCreateCertificate echoParseCertificate 1000 "root" sampleKey {}
      = .ok
          { Cred :=
              { PrivateKey := sampleKey
                Crt := { Certificate :=
                  shapedTemplate 1000 1 sampleKey.PublicKey {} "root" (-1) false caUsageReplaced } }
            Validity := {}
            nextSerialNumber := 2 } ∧
    (shapedTemplate 1000 1 sampleKey.PublicKey {} "child" 0 true caUsageReplaced).KeyUsage = 96 ∧
    (shapedTemplate 1000 1 sampleKey.PublicKey {} "root" (-1) false caUsageReplaced).KeyUsage = 96 ∧
    caUsageAdded = 101 ∧
    (96 : Nat) &&& KeyUsageDigitalSignature = 0 ∧
    (96 : Nat) &&& KeyUsageKeyEncipherment = 0 := by
  refine ⟨?_, ?_, by decide, by decide, by decide, by decide, by decide⟩
  · rw [generateCA_eq]
    rfl
  · rw [createRootCA_eq]
    rfl

/-- C7 (amended): the CA-shaped template built by GenerateCA (and by CreateRootCA) is
the base template with the Subject set to the given common name, IsCA = true,
BasicConstraintsValid = true, an explicit MaxPathLen (the argument with the zero
marker set in GenerateCA, -1 without the marker in CreateRootCA), and KeyUsage set
to certSign | crlSign alone: the usages of the base template are replaced. -/
theorem C7_ca_template {DER : Type}
    (ecdsaGenerateKey : Curve → Except Error ECDSAPrivateKey) (signCrt : Signer)
    (x509CreateCertificate :
      Certificate → Certificate → PublicKey → ECDSAPrivateKey → Except Error DER)
    (x509ParseCertificate : DER → Except Error Certificate)
    (now : Time) (ca : CA) (name : String) (validity : Validity) (maxPathLen : Int)
    (key : ECDSAPrivateKey) (n : Nat) (zero : Bool) :
    (ca.GenerateCA ecdsaGenerateKey signCrt now name validity maxPathLen =
      match ecdsaGenerateKey .P256 with
      | .error err => (.error err, ca)
      | .ok key =>
        (match signCrt ca.Cred (shapedTemplate now ca.nextSerialNumber key.PublicKey ca.Validity
            name maxPathLen true caUsageReplaced) with
         | .error err => .error err
         | .ok crt =>
           match validCredOrPanic key crt with
           | none => .panicked
           | some cred => .ok (NewCA cred ca.Validity),
         ca.bumped)) ∧
    (CreateRootCA x509CreateCertificate x509ParseCertificate now name key validity =
      match x509CreateCertificate
          (shapedTemplate now 1 key.PublicKey validity name (-1) false caUsageReplaced)
          (shapedTemplate now 1 key.PublicKey validity name (-1) false caUsageReplaced)
          (.ecdsa key.PublicKey) key with
      | .error err => .error err
      | .ok crtb =>
        match x509ParseCertificate crtb with
        | .error err => .error err
        | .ok c =>
          match validCredOrPanic key { Certificate := c } with
          | none => .panicked
          | some cred => .ok { Cred := cred, Validity := validity, nextSerialNumber := 2 }) ∧
    shapedTemplate now n key.PublicKey validity name maxPathLen zero caUsageReplaced =
      { createTemplate now n key.PublicKey validity with
        Subject := { CommonName := name }
        IsCA := true
        MaxPathLen := maxPathLen
        MaxPathLenZero := zero
        BasicConstraintsValid := true
        KeyUsage := KeyUsageCertSign ||| KeyUsageCRLSign } ∧
    (createTemplate now n key.PublicKey validity).KeyUsage
      = KeyUsageDigitalSignature ||| KeyUsageKeyEncipherment ∧
    caUsageReplaced = KeyUsageCertSign ||| KeyUsageCRLSign ∧
    caUsageReplaced &&& (KeyUsageDigitalSignature ||| KeyUsageKeyEncipherment) = 0 :=
  ⟨generateCA_eq ecdsaGenerateKey signCrt now ca name validity maxPathLen,
   createRootCA_eq x509CreateCertificate x509ParseCertificate now name key validity,
   rfl, rfl, rfl, by decide⟩

/-! ## Serial numbers of issued certificates -/

theorem signEndEntityCrt_ok (c : Call) (hc : c.KeepsSerial) (ca : CA) (crt : Crt)
    (h : (ca.SignEndEntityCrt c.signCrt c.now c.csr).1 = .ok crt) :
    crt.Certificate.SerialNumber = int64OfUint64 ca.nextSerialNumber ∧
    (ca.SignEndEntityCrt c.signCrt c.now c.csr).2 = ca.bumped := by
  rcases key_cases c.csr.PublicKey with ⟨k, hk⟩ | hk
  · rw [signEndEntityCrt_ecdsa c.signCrt c.now ca c.csr k hk] at h ⊢
    have hs := hc ca.Cred (leafTemplate ca c.now c.csr k) crt h
    exact ⟨hs, rfl⟩
  · rw [signEndEntityCrt_rejected c.signCrt c.now ca c.csr hk] at h
    cases h

theorem signEndEntityCrt_counter (signCrt : Signer) (now : Time) (ca : CA)
    (csr : CertificateRequest) :
    (ca.SignEndEntityCrt signCrt now csr).2 = ca ∨
    (ca.SignEndEntityCrt signCrt now csr).2 = ca.bumped := by
  rcases key_cases csr.PublicKey with ⟨k, hk⟩ | hk
  · rw [signEndEntityCrt_ecdsa signCrt now ca csr k hk]
    exact Or.inr rfl
  · rw [signEndEntityCrt_rejected signCrt now ca csr hk]
    exact Or.inl rfl

/-! ## Sequences of calls -/

theorem signAll_cons (ca : CA) (c : Call) (cs : List Call) :
    ca.signAll (c :: cs) =
      ((ca.SignEndEntityCrt c.signCrt c.now c.csr).1
          :: ((ca.SignEndEntityCrt c.signCrt c.now c.csr).2.signAll cs).1,
       ((ca.SignEndEntityCrt c.signCrt c.now c.csr).2.signAll cs).2) := rfl

theorem signAll_append (l1 l2 : List Call) : ∀ ca : CA,
    ca.signAll (l1 ++ l2) =
      ((ca.signAll l1).1 ++ ((ca.signAll l1).2.signAll l2).1,
       ((ca.signAll l1).2.signAll l2).2) := by
  induction l1 with
  | nil => intro ca; rfl
  | cons c cs ih =>
    intro ca
    rw [List.cons_append, signAll_cons, signAll_cons, ih]
    rfl

theorem issuedSerials_cons_ok (crt : Crt) (rs : List (Except Error Crt)) :
    issuedSerials (.ok crt :: rs) = crt.Certificate.SerialNumber :: issuedSerials rs := rfl

theorem issuedSerials_cons_error (e : Error) (rs : List (Except Error Crt)) :
    issuedSerials (.error e :: rs) = issuedSerials rs := rfl

theorem issuedSerials_append (l1 l2 : List (Except Error Crt)) :
    issuedSerials (l1 ++ l2) = issuedSerials l1 ++ issuedSerials l2 := by
  unfold issuedSerials
  exact List.filterMap_append _ _ _

theorem bumped_counter_of_lt {ca : CA} (h : ca.nextSerialNumber + 1 < 2 ^ 64) :
    ca.bumped.nextSerialNumber = ca.nextSerialNumber + 1 := by
  show (ca.nextSerialNumber + 1) % 2 ^ 64 = ca.nextSerialNumber + 1
  exact Nat.mod_eq_of_lt h

/-- Below 2^63 the counter does not wrap and every issued serial is the counter value
of its call: the serials are strictly increasing and at least the initial counter. -/
theorem signAll_serials_increasing (calls : List Call) : ∀ ca : CA,
    (∀ c ∈ calls, c.KeepsSerial) → ca.nextSerialNumber + calls.length ≤ 2 ^ 63 →
    (issuedSerials (ca.signAll calls).1).Pairwise (· < ·) ∧
    ∀ s ∈ issuedSerials (ca.signAll calls).1, (ca.nextSerialNumber : Int) ≤ s := by
  induction calls with
  | nil =>
    intro ca _ _
    exact ⟨List.Pairwise.nil, fun s hs => by cases hs⟩
  | cons c cs ih =>
    intro ca hkeep hlen
    have hc : c.KeepsSerial := hkeep c (List.mem_cons_self _ _)
    have hcs : ∀ c0 ∈ cs, c0.KeepsSerial := fun c0 h0 => hkeep c0 (List.mem_cons_of_mem _ h0)
    simp only [List.length_cons] at hlen
    have hb : ca.bumped.nextSerialNumber = ca.nextSerialNumber + 1 :=
      bumped_counter_of_lt (by omega)
    rw [signAll_cons]
    cases hr : (ca.SignEndEntityCrt c.signCrt c.now c.csr).1 with
    | ok crt =>
      obtain ⟨hs, hca⟩ := signEndEntityCrt_ok c hc ca crt hr
      rw [hca]
      obtain ⟨ihp, ihb⟩ := ih ca.bumped hcs (by rw [hb]; omega)
      rw [hb] at ihb
      have hser : crt.Certificate.SerialNumber = (ca.nextSerialNumber : Int) := by
        rw [hs]
        exact int64OfUint64_of_lt (by omega)
      simp only [issuedSerials_cons_ok]
      refine ⟨List.Pairwise.cons ?_ ihp, ?_⟩
      · intro s hsm
        have := ihb s hsm
        omega
      · intro s hsm
        rcases List.mem_cons.mp hsm with h | h
        · omega
        · have := ihb s h
          omega
    | error e =>
      simp only [issuedSerials_cons_error]
      rcases signEndEntityCrt_counter c.signCrt c.now ca c.csr with hca | hca
      · rw [hca]
        exact ih ca hcs (by omega)
      · rw [hca]
        obtain ⟨ihp, ihb⟩ := ih ca.bumped hcs (by rw [hb]; omega)
        rw [hb] at ihb
        refine ⟨ihp, ?_⟩
        intro s hsm
        have := ihb s hsm
        omega

theorem int64OfUint64_ne_zero {n : Nat} (h0 : 0 < n) (h : n < 2 ^ 64) : int64OfUint64 n ≠ 0 := by
  unfold int64OfUint64 wrapInt64
  omega

/-- Below 2^64 the counter does not wrap: it stays between its initial value and the
initial value plus the number of calls, and no issued serial is 0. -/
theorem signAll_no_wrap (calls : List Call) : ∀ ca : CA,
    (∀ c ∈ calls, c.KeepsSerial) → 0 < ca.nextSerialNumber →
    ca.nextSerialNumber + calls.length < 2 ^ 64 →
    ca.nextSerialNumber ≤ (ca.signAll calls).2.nextSerialNumber ∧
    (ca.signAll calls).2.nextSerialNumber ≤ ca.nextSerialNumber + calls.length ∧
    ∀ s ∈ issuedSerials (ca.signAll calls).1, s ≠ 0 := by
  induction calls with
  | nil =>
    intro ca _ _ _
    exact ⟨Nat.le_refl _, Nat.le_refl _, fun s hs => by cases hs⟩
  | cons c cs ih =>
    intro ca hkeep hpos hlen
    have hc : c.KeepsSerial := hkeep c (List.mem_cons_self _ _)
    have hcs : ∀ c0 ∈ cs, c0.KeepsSerial := fun c0 h0 => hkeep c0 (List.mem_cons_of_mem _ h0)
    simp only [List.length_cons] at hlen ⊢
    have hb : ca.bumped.nextSerialNumber = ca.nextSerialNumber + 1 :=
      bumped_counter_of_lt (by omega)
    rw [signAll_cons]
    cases hr : (ca.SignEndEntityCrt c.signCrt c.now c.csr).1 with
    | ok crt =>
      obtain ⟨hs, hca⟩ := signEndEntityCrt_ok c hc ca crt hr
      rw [hca]
      obtain ⟨ih1, ih2, ih3⟩ := ih ca.bumped hcs (by omega) (by rw [hb]; omega)
      rw [hb] at ih1 ih2
      simp only [issuedSerials_cons_ok]
      refine ⟨by omega, by omega, ?_⟩
      intro s hsm
      rcases List.mem_cons.mp hsm with h | h
      · rw [h, hs]
        exact int64OfUint64_ne_zero hpos (by omega)
      · exact ih3 s h
    | error e =>
      simp only [issuedSerials_cons_error]
      rcases signEndEntityCrt_counter c.signCrt c.now ca c.csr with hca | hca
      · rw [hca]
        obtain ⟨ih1, ih2, ih3⟩ := ih ca hcs hpos (by omega)
        exact ⟨ih1, by omega, ih3⟩
      · rw [hca]
        obtain ⟨ih1, ih2, ih3⟩ := ih ca.bumped hcs (by omega) (by rw [hb]; omega)
        rw [hb] at ih1 ih2
        exact ⟨by omega, by omega, ih3⟩

theorem signAll_replicate_state (c : Call) (k : ECDSAPublicKey)
    (hk : c.csr.PublicKey = .ecdsa k) (n : Nat) : ∀ ca : CA, ca.nextSerialNumber < 2 ^ 64 →
    (ca.signAll (List.replicate n c)).2 =
      { Cred := ca.Cred, Validity := ca.Validity
        nextSerialNumber := (ca.nextSerialNumber + n) % 2 ^ 64 } := by
  induction n with
  | zero =>
    intro ca hlt
    show ca = _
    rw [Nat.add_zero, Nat.mod_eq_of_lt hlt]
  | succ n ih =>
    intro ca hlt
    rw [List.replicate_succ, signAll_cons, signEndEntityCrt_ecdsa c.signCrt c.now ca c.csr k hk]
    show (ca.bumped.signAll (List.replicate n c)).2 = _
    rw [ih ca.bumped (Nat.mod_lt _ (by norm_num))]
    show ({ Cred := ca.Cred, Validity := ca.Validity
            nextSerialNumber := ((ca.nextSerialNumber + 1) % 2 ^ 64 + n) % 2 ^ 64 } : CA) = _
    have : ((ca.nextSerialNumber + 1) % 2 ^ 64 + n) % 2 ^ 64
        = (ca.nextSerialNumber + (n + 1)) % 2 ^ 64 := by omega
    rw [this]

theorem echoSigner_keepsSerial (now : Time) (csr : CertificateRequest) :
    Call.KeepsSerial { signCrt := echoSigner, now := now, csr := csr } := by
  intro cred t crt h
  simp only [echoSigner, Except.ok.injEq] at h
  rw [← h]

theorem signAll_replicate_ok (n : Nat) : ∀ ca : CA,
    ∀ r ∈ (ca.signAll (List.replicate n sampleCall)).1, ∃ crt, r = .ok crt := by
  induction n with
  | zero =>
    intro ca r hr
    cases hr
  | succ n ih =>
    intro ca r hr
    rw [List.replicate_succ, signAll_cons,
      signEndEntityCrt_ecdsa sampleCall.signCrt sampleCall.now ca sampleCall.csr _ rfl] at hr
    rcases List.mem_cons.mp hr with h | h
    · exact ⟨_, h⟩
    · exact ih _ r h

theorem replicate_split (n : Nat) (hn : 2 ≤ n) (c : Call) :
    List.replicate n c = List.replicate (n - 2) c ++ [c, c] := by
  have h := List.replicate_add (n - 2) 2 c
  have e : n - 2 + 2 = n := by omega
  rw [e] at h
  rw [h]
  rfl

/-- The run of `n` successful sample calls on the fresh sample CA ends with the two
calls made at the counter value `n - 1` and the one after it. -/
theorem sample_run_split (n : Nat) (hn : 2 ≤ n) (hlt : n ≤ 2 ^ 64) :
    (sampleCA.signAll (List.replicate n sampleCall)).1 =
      (sampleCA.signAll (List.replicate (n - 2) sampleCall)).1
        ++ ((caAt (n - 1)).signAll [sampleCall, sampleCall]).1 := by
  rw [replicate_split n hn, signAll_append]
  have hst := signAll_replicate_state sampleCall _ rfl (n - 2) sampleCA (by decide)
  have hmod : (sampleCA.nextSerialNumber + (n - 2)) % 2 ^ 64 = n - 1 := by
    show (1 + (n - 2)) % 2 ^ 64 = n - 1
    omega
  rw [hmod] at hst
  rw [hst]
  rfl

theorem createRootCA_ok {DER : Type}
    (x509CreateCertificate :
      Certificate → Certificate → PublicKey → ECDSAPrivateKey → Except Error DER)
    (x509ParseCertificate : DER → Except Error Certificate)
    (now : Time) (name : String) (key : ECDSAPrivateKey) (validity : Validity) (root : CA)
    (h : CreateRootCA x509CreateCertificate x509ParseCertificate now name key validity
      = .ok root) :
    root.Validity = validity ∧ root.nextSerialNumber = 2 := by
  rw [createRootCA_eq] at h
  cases hc : x509CreateCertificate
      (shapedTemplate now 1 key.PublicKey validity name (-1) false caUsageReplaced)
      (shapedTemplate now 1 key.PublicKey validity name (-1) false caUsageReplaced)
      (.ecdsa key.PublicKey) key with
  | error err => rw [hc] at h; cases h
  | ok der =>
    rw [hc] at h
    simp only [] at h
    cases hp : x509ParseCertificate der with
    | error err => rw [hp] at h; cases h
    | ok c =>
      rw [hp] at h
      simp only [] at h
      cases hv : validCredOrPanic key { Certificate := c } with
      | none => rw [hv] at h; cases h
      | some cred0 =>
        rw [hv] at h
        simp only [Outcome.ok.injEq] at h
        subst h
        exact ⟨rfl, rfl⟩

/-- C2 (as stated, refuted): 2^63 successful calls on a fresh CA. Every call succeeds,
yet the serials are neither strictly increasing nor all positive: the call made at
the counter value 2^63 - 1 issues 2^63 - 1 and the next one issues -2^63, the `int64`
conversion of 2^63. -/
theorem C2_serials_turn_negative :
    sampleCall.KeepsSerial ∧
    sampleCA = NewCA sampleCred {} ∧
    (∀ r ∈ (sampleCA.signAll (List.replicate (2 ^ 63) sampleCall)).1, ∃ crt, r = .ok crt) ∧
    issuedSerials ((caAt (2 ^ 63 - 1)).signAll [sampleCall, sampleCall]).1
      = [2 ^ 63 - 1, -2 ^ 63] ∧
    ¬ (issuedSerials (sampleCA.signAll (List.replicate (2 ^ 63) sampleCall)).1).Pairwise
        (· < ·) ∧
    ¬ ∀ s ∈ issuedSerials (sampleCA.signAll (List.replicate (2 ^ 63) sampleCall)).1, 0 < s := by
  have htail : issuedSerials ((caAt (2 ^ 63 - 1)).signAll [sampleCall, sampleCall]).1
      = [2 ^ 63 - 1, -2 ^ 63] := by decide
  have hsplit := sample_run_split (2 ^ 63) (by norm_num) (by norm_num)
  refine ⟨echoSigner_keepsSerial _ _, rfl, signAll_replicate_ok _ _, htail, ?_, ?_⟩
  · rw [hsplit, issuedSerials_append, htail]
    intro hp
    have h2 := (List.pairwise_append.mp hp).2.1
    have h3 := List.rel_of_pairwise_cons h2 (List.mem_singleton_self _)
    exact absurd h3 (by decide)
  · rw [hsplit, issuedSerials_append, htail]
    intro hall
    have := hall (-2 ^ 63) (List.mem_append_right _ (by decide))
    exact absurd this (by decide)

/-- C2 (amended): for any sequence of SignEndEntityCrt calls on one CA instance built by
NewCA or CreateRootCA, as long as the counter stays below 2^63 (the initial counter
plus the number of calls is at most 2^63), the serial numbers of the certificates
issued by the successful calls are strictly increasing positive integers, so no
serial is reused. The signers are assumed to carry the serial number of the
template into the certificate. -/
theorem C2_serials_increasing_below_2_63 {DER : Type}
    (x509CreateCertificate :
      Certificate → Certificate → PublicKey → ECDSAPrivateKey → Except Error DER)
    (x509ParseCertificate : DER → Except Error Certificate)
    (now : Time) (name : String) (key : ECDSAPrivateKey) (validity : Validity)
    (cred : Cred) (v : Validity) (ca : CA) (calls : List Call)
    (hca : ca = NewCA cred v ∨
      CreateRootCA x509CreateCertificate x509ParseCertificate now name key validity = .ok ca)
    (hkeep : ∀ c ∈ calls, c.KeepsSerial)
    (hlen : ca.nextSerialNumber + calls.length ≤ 2 ^ 63) :
    (issuedSerials (ca.signAll calls).1).Pairwise (· < ·) ∧
    (∀ s ∈ issuedSerials (ca.signAll calls).1, 0 < s) ∧
    (issuedSerials (ca.signAll calls).1).Nodup := by
  have hpos : 0 < ca.nextSerialNumber := by
    rcases hca with h | h
    · rw [h]
      exact Nat.one_pos
    · rw [(createRootCA_ok _ _ _ _ _ _ _ h).2]
      exact Nat.succ_pos 1
  obtain ⟨hp, hb⟩ := signAll_serials_increasing calls ca hkeep hlen
  refine ⟨hp, ?_, hp.imp (fun h => ne_of_lt h)⟩
  intro s hs
  have := hb s hs
  omega

theorem C2_serials_increasing_below_2_63_witness :
    (issuedSerials (sampleCA.signAll [sampleCall, sampleCall, sampleCall]).1).Pairwise (· < ·) ∧
    (∀ s ∈ issuedSerials (sampleCA.signAll [sampleCall, sampleCall, sampleCall]).1, 0 < s) ∧
    (issuedSerials (sampleCA.signAll [sampleCall, sampleCall, sampleCall]).1).Nodup :=
  C2_serials_increasing_below_2_63 echoCreateCertificate echoParseCertificate 1000 "root"
    sampleKey {} sampleCred {} sampleCA [sampleCall, sampleCall, sampleCall] (Or.inl rfl)
    (fun c hc => by
      simp only [List.mem_cons, List.mem_singleton, List.not_mem_nil, or_false, or_self] at hc
      rw [hc]
      exact echoSigner_keepsSerial _ _)
    (by decide)

/-- C3 (as stated, refuted): 2^64 successful calls on a fresh CA. No call aborts. The
calls before the last two bring the counter to the maximum uint64 value; the call
made there issues the serial -1 and leaves the counter at 0, and the call after it
issues a certificate with serial 0. -/
theorem C3_counter_wraps_to_zero :
    (∀ r ∈ (sampleCA.signAll (List.replicate (2 ^ 64) sampleCall)).1, ∃ crt, r = .ok crt) ∧
    (sampleCA.signAll (List.replicate (2 ^ 64 - 2) sampleCall)).2 = caAt (2 ^ 64 - 1) ∧
    ((caAt (2 ^ 64 - 1)).SignEndEntityCrt echoSigner 1000 sampleCSR).2.nextSerialNumber = 0 ∧
    issuedSerials ((caAt (2 ^ 64 - 1)).signAll [sampleCall, sampleCall]).1 = [-1, 0] ∧
    (0 : Int) ∈ issuedSerials (sampleCA.signAll (List.replicate (2 ^ 64) sampleCall)).1 := by
  have htail : issuedSerials ((caAt (2 ^ 64 - 1)).signAll [sampleCall, sampleCall]).1
      = [-1, 0] := by decide
  have hsplit := sample_run_split (2 ^ 64) (by norm_num) (by norm_num)
  refine ⟨signAll_replicate_ok _ _, ?_, by decide, htail, ?_⟩
  · rw [signAll_replicate_state sampleCall _ rfl (2 ^ 64 - 2) sampleCA (by decide)]
    show ({ Cred := sampleCred, Validity := {}
            nextSerialNumber := (1 + (2 ^ 64 - 2)) % 2 ^ 64 } : CA) = caAt (2 ^ 64 - 1)
    have : (1 + (2 ^ 64 - 2)) % 2 ^ 64 = 2 ^ 64 - 1 := by norm_num
    rw [this]
    rfl
  · rw [hsplit, issuedSerials_append, htail]
    exact List.mem_append_right _ (by decide)

/-- C3 (amended): the serial counter does not wrap around as long as it stays below
the maximum uint64 value. For every CA with a positive counter and every sequence
of calls such that the counter plus the number of calls is below 2^64, the counter
after the calls lies between its initial value and that value plus the number of
calls, so it is never 0, and no certificate is issued with serial 0. The signers are
assumed to carry the serial number of the template into the certificate. -/
theorem C3_no_wrap_below_max (ca : CA) (calls : List Call)
    (hkeep : ∀ c ∈ calls, c.KeepsSerial) (hpos : 0 < ca.nextSerialNumber)
    (hlen : ca.nextSerialNumber + calls.length < 2 ^ 64) :
    ca.nextSerialNumber ≤ (ca.signAll calls).2.nextSerialNumber ∧
    (ca.signAll calls).2.nextSerialNumber ≤ ca.nextSerialNumber + calls.length ∧
    (ca.signAll calls).2.nextSerialNumber ≠ 0 ∧
    ∀ s ∈ issuedSerials (ca.signAll calls).1, s ≠ 0 := by
  obtain ⟨h1, h2, h3⟩ := signAll_no_wrap calls ca hkeep hpos hlen
  exact ⟨h1, h2, by omega, h3⟩

theorem C3_no_wrap_below_max_witness :
    (caAt (2 ^ 64 - 3)).nextSerialNumber
      ≤ ((caAt (2 ^ 64 - 3)).signAll [sampleCall, sampleCall]).2.nextSerialNumber ∧
    ((caAt (2 ^ 64 - 3)).signAll [sampleCall, sampleCall]).2.nextSerialNumber
      ≤ (caAt (2 ^ 64 - 3)).nextSerialNumber + [sampleCall, sampleCall].length ∧
    ((caAt (2 ^ 64 - 3)).signAll [sampleCall, sampleCall]).2.nextSerialNumber ≠ 0 ∧
    ∀ s ∈ issuedSerials ((caAt (2 ^ 64 - 3)).signAll [sampleCall, sampleCall]).1, s ≠ 0 :=
  C3_no_wrap_below_max (caAt (2 ^ 64 - 3)) [sampleCall, sampleCall]
    (fun c hc => by
      simp only [List.mem_cons, List.mem_singleton, List.not_mem_nil, or_false, or_self] at hc
      rw [hc]
      exact echoSigner_keepsSerial _ _)
    (by decide) (by decide)

theorem sample_createRootCA :
    CreateRootCA echoCreateCertificate echoParseCertificate 1000 "root" sampleKey {}
      = .ok sampleRootCA := by
  rfl

theorem C6_leaf_template_witness :
    (sampleCA.SignEndEntityCrt echoSigner 1000 sampleCSR).1
      = .ok { Certificate :=
          leafTemplate sampleCA 1000 sampleCSR { Curve := .P256, X := 17, Y := 19 } } ∧
    (leafTemplate sampleCA 1000 sampleCSR { Curve := .P256, X := 17, Y := 19 }).SerialNumber = 1 ∧
    (leafTemplate sampleCA 1000 sampleCSR { Curve := .P256, X := 17, Y := 19 }).Issuer
      = { CommonName := "identity.linkerd.cluster.local" } ∧
    (leafTemplate sampleCA 1000 sampleCSR { Curve := .P256, X := 17, Y := 19 }).DNSNames
      = ["books.emojivoto.serviceaccount.identity.linkerd.cluster.local"] :=
  have h := C6_leaf_template echoSigner 1000 sampleCA sampleCSR
    { Curve := .P256, X := 17, Y := 19 } rfl
  ⟨congrArg Prod.fst h.1, h.2.2.1 (by decide), h.2.2.2.2.2.2.2.1, h.2.2.2.2.2.2.2.2.2.1⟩

theorem signAll_rejected (l : List Call) (ca : CA) (h : ∀ c ∈ l, c.KeyRejected) :
    ca.signAll l = (l.map Call.rejection, ca) := by
  induction l with
  | nil => rfl
  | cons c cs ih =>
    have hc : c.KeyRejected := h c (List.mem_cons_self _ _)
    have hcs : ∀ c0 ∈ cs, c0.KeyRejected := fun c0 h0 => h c0 (List.mem_cons_of_mem _ h0)
    rw [signAll_cons, signEndEntityCrt_rejected c.signCrt c.now ca c.csr hc, ih hcs]
    rfl

/-- After calls that are all rejected for their key, the first result of the run that
follows is that of the next call on the unchanged CA. -/
theorem signAll_after_rejected (pre rest : List Call) (c : Call) (ca : CA)
    (hpre : ∀ c0 ∈ pre, c0.KeyRejected) (r : Except Error Crt)
    (tail : List (Except Error Crt))
    (h : (ca.signAll (pre ++ c :: rest)).1 = pre.map Call.rejection ++ r :: tail) :
    (ca.SignEndEntityCrt c.signCrt c.now c.csr).1 = r ∧
    ((ca.SignEndEntityCrt c.signCrt c.now c.csr).2.signAll rest).1 = tail := by
  rw [signAll_append, signAll_rejected pre ca hpre, signAll_cons] at h
  have h2 := List.append_cancel_left h
  simp only [List.cons.injEq] at h2
  exact h2

/-- C8 (as stated, refuted): a call that fails in the signing step consumes a serial.
On the fresh CA of NewCA, after one such call the first two successful calls issue
the serials 2 and 3, not 1 and 2; on the CA of a successful CreateRootCA, after one
such call the first successful call issues serial 3, not 2. -/
theorem C8_failed_signing_shifts_serials :
    sampleCA = NewCA sampleCred {} ∧
    (sampleCA.signAll [failingCall, sampleCall, sampleCall]).1 =
      [.error (.upstream "signing failed"),
       .ok { Certificate :=
          leafTemplate (caAt 2) 1000 sampleCSR { Curve := .P256, X := 17, Y := 19 } },
       .ok { Certificate :=
          leafTemplate (caAt 3) 1000 sampleCSR { Curve := .P256, X := 17, Y := 19 } }] ∧
    issuedSerials (sampleCA.signAll [failingCall, sampleCall, sampleCall]).1 = [2, 3] ∧
    CreateRootCA echoCreateCertificate echoParseCertificate 1000 "root" sampleKey {}
      = .ok sampleRootCA ∧
    (sampleRootCA.signAll [failingCall, sampleCall]).1 =
      [.error (.upstream "signing failed"),
       .ok { Certificate :=
          (leafTemplate { sampleRootCA with nextSerialNumber := 3 } 1000 sampleCSR
            { Curve := .P256, X := 17, Y := 19 }) }] ∧
    issuedSerials (sampleRootCA.signAll [failingCall, sampleCall]).1 = [3] := by
  refine ⟨rfl, ?_, ?_, sample_createRootCA, ?_, ?_⟩
  · rfl
  · decide
  · rfl
  · decide

/-- C8 (amended): serial progression from fresh CAs when no earlier call fails in the
signing step. On a CA returned by NewCA, if the calls made before the first two
successful calls fail only by rejection of their CSR key, those two calls issue the
serials 1 and then 2. A CA returned by a successful CreateRootCA holds a root
certificate with serial 1 and the counter 2, and under the same condition its first
successful call issues serial 2. Calls rejected for their key consume no serial; a
call that fails in the signing step does. The signers and the x509 encoding are
assumed to carry the serial number of the template into the certificate. -/
theorem C8_serial_progression_without_signing_failure {DER : Type}
    (x509CreateCertificate :
      Certificate → Certificate → PublicKey → ECDSAPrivateKey → Except Error DER)
    (x509ParseCertificate : DER → Except Error Certificate)
    (hx509 : ∀ t parent pub priv der c, x509CreateCertificate t parent pub priv = .ok der →
      x509ParseCertificate der = .ok c → c.SerialNumber = t.SerialNumber)
    (cred : Cred) (v : Validity) (now : Time) (name : String) (key : ECDSAPrivateKey)
    (validity : Validity) (pre mid rest : List Call) (c1 c2 : Call)
    (hpre : ∀ c ∈ pre, c.KeyRejected) (hmid : ∀ c ∈ mid, c.KeyRejected)
    (h1 : c1.KeepsSerial) (h2 : c2.KeepsSerial) :
    (NewCA cred v).nextSerialNumber = 1 ∧
    (∀ crt1 crt2 tail,
      ((NewCA cred v).signAll (pre ++ c1 :: (mid ++ c2 :: rest))).1
        = pre.map Call.rejection ++ .ok crt1 :: (mid.map Call.rejection ++ .ok crt2 :: tail) →
      crt1.Certificate.SerialNumber = 1 ∧ crt2.Certificate.SerialNumber = 2) ∧
    (∀ root, CreateRootCA x509CreateCertificate x509ParseCertificate now name key validity
        = .ok root →
      root.Cred.Crt.Certificate.SerialNumber = 1 ∧ root.nextSerialNumber = 2 ∧
      ∀ crt tail,
        (root.signAll (pre ++ c1 :: rest)).1 = pre.map Call.rejection ++ .ok crt :: tail →
        crt.Certificate.SerialNumber = 2) := by
  refine ⟨rfl, ?_, ?_⟩
  · intro crt1 crt2 tail h
    obtain ⟨ha, hb⟩ := signAll_after_rejected pre _ c1 _ hpre _ _ h
    obtain ⟨hs1, hca1⟩ := signEndEntityCrt_ok c1 h1 _ crt1 ha
    rw [hca1] at hb
    obtain ⟨hc, -⟩ := signAll_after_rejected mid _ c2 _ hmid _ _ hb
    obtain ⟨hs2, -⟩ := signEndEntityCrt_ok c2 h2 _ crt2 hc
    refine ⟨?_, ?_⟩
    · rw [hs1]
      show int64OfUint64 1 = 1
      decide
    · rw [hs2]
      show int64OfUint64 ((1 + 1) % 2 ^ 64) = 2
      decide
  · intro root hroot
    rw [createRootCA_eq] at hroot
    cases hc : x509CreateCertificate
        (shapedTemplate now 1 key.PublicKey validity name (-1) false caUsageReplaced)
        (shapedTemplate now 1 key.PublicKey validity name (-1) false caUsageReplaced)
        (.ecdsa key.PublicKey) key with
    | error err => rw [hc] at hroot; cases hroot
    | ok der =>
      rw [hc] at hroot
      simp only [] at hroot
      cases hp : x509ParseCertificate der with
      | error err => rw [hp] at hroot; cases hroot
      | ok c =>
        rw [hp] at hroot
        simp only [] at hroot
        cases hv : validCredOrPanic key { Certificate := c } with
        | none => rw [hv] at hroot; cases hroot
        | some cred0 =>
          rw [hv] at hroot
          simp only [Outcome.ok.injEq] at hroot
          have hcred := validCredOrPanic_some hv
          have hser := hx509 _ _ _ _ _ _ hc hp
          subst hroot
          subst hcred
          refine ⟨?_, rfl, ?_⟩
          · show c.SerialNumber = 1
            rw [hser]
            show int64OfUint64 1 = 1
            decide
          · intro crt tail hrun
            obtain ⟨ha, -⟩ := signAll_after_rejected pre _ c1 _ hpre _ _ hrun
            obtain ⟨hs, -⟩ := signEndEntityCrt_ok c1 h1 _ crt ha
            rw [hs]
            show int64OfUint64 2 = 2
            decide

theorem sample_run_with_rejections :
    (sampleCA.signAll ([rejectedCall] ++ sampleCall :: ([rejectedCall, rejectedCall]
        ++ sampleCall :: [failingCall]))).1 =
      [rejectedCall].map Call.rejection ++
        .ok { Certificate :=
          leafTemplate sampleCA 1000 sampleCSR { Curve := .P256, X := 17, Y := 19 } }
        :: ([rejectedCall, rejectedCall].map Call.rejection ++
          .ok { Certificate :=
            leafTemplate sampleCA.bumped 1000 sampleCSR { Curve := .P256, X := 17, Y := 19 } }
          :: [.error (.upstream "signing failed")]) := by
  rfl

theorem sample_root_run_with_rejections :
    (sampleRootCA.signAll ([rejectedCall] ++ sampleCall :: [failingCall])).1 =
      [rejectedCall].map Call.rejection ++
        .ok { Certificate :=
          leafTemplate sampleRootCA 1000 sampleCSR { Curve := .P256, X := 17, Y := 19 } }
        :: [.error (.upstream "signing failed")] := by
  rfl

theorem rejectedCall_keyRejected : ∀ c ∈ [rejectedCall], c.KeyRejected := by
  intro c hc
  rw [List.mem_singleton.mp hc]
  intro k h
  cases h

theorem rejectedCalls_keyRejected : ∀ c ∈ [rejectedCall, rejectedCall], c.KeyRejected := by
  intro c hc
  simp only [List.mem_cons, List.mem_singleton, List.not_mem_nil, or_false, or_self] at hc
  rw [hc]
  intro k h
  cases h

theorem C8_serial_progression_without_signing_failure_witness :
    (leafTemplate sampleCA 1000 sampleCSR { Curve := .P256, X := 17, Y := 19 }).SerialNumber = 1 ∧
    (leafTemplate sampleCA.bumped 1000 sampleCSR { Curve := .P256, X := 17, Y := 19 }).SerialNumber
      = 2 ∧
    sampleRootCA.Cred.Crt.Certificate.SerialNumber = 1 ∧
    sampleRootCA.nextSerialNumber = 2 ∧
    (leafTemplate sampleRootCA 1000 sampleCSR { Curve := .P256, X := 17, Y := 19 }).SerialNumber
      = 2 :=
  have h := C8_serial_progression_without_signing_failure
    echoCreateCertificate echoParseCertificate
    (fun t _ _ _ der c hc hp => by
      simp only [echoCreateCertificate, Except.ok.injEq] at hc
      simp only [echoParseCertificate, Except.ok.injEq] at hp
      rw [← hp, ← hc])
    sampleCred {} 1000 "root" sampleKey {} [rejectedCall] [rejectedCall, rejectedCall]
    [failingCall] sampleCall sampleCall rejectedCall_keyRejected rejectedCalls_keyRejected
    (echoSigner_keepsSerial _ _) (echoSigner_keepsSerial _ _)
  have hA := h.2.1 _ _ _ sample_run_with_rejections
  have hB := h.2.2 sampleRootCA sample_createRootCA
  have hC := hB.2.2 _ _ sample_root_run_with_rejections
  ⟨hA.1, hA.2, hB.1, hB.2.1, hC⟩

end Tls
